import Mathlib

/-!
Verification of the go-centrifuge document core against its specification.

The development shallowly embeds the CoreDocument operations of
`src/documents/coredocument.go` (and, where the implementation file is
absent from the excerpt, definitions modelled from the specification and
pinned by the repository's own tests) and proves or refutes the frozen
claims about them.

Modelling conventions:
  * byte strings are `List Nat`;
  * the SHA-256 hashes produced by the precise-proofs merkle builder are
    modelled as a free term algebra `Digest` (collision-free idealisation):
    a value leaf is `Digest.leaf name value`, a pre-hashed leaf is
    `Digest.raw bytes`, and pair hashing is `Digest.node`.  The per-leaf
    salts are deterministic functions of the leaf property under the salt
    generator, so they are folded into the symbolic leaf digest; the
    `EnableHashSorting` option permutes the two children of a pair by byte
    value, an order isomorphism that none of the proved claims depends on,
    so the pair is kept in insertion order;
  * random 32-byte draws (`utils.RandomSlice`, `crypto.GenerateHashPair`)
    are threaded as explicit arguments, making the operations deterministic
    functions of document plus fresh values;
  * Go `(value, error)` results are `Except String value`; the one place
    where a nil value is returned together with a nil error (the p2p
    GetDocument handler) is modelled as an explicit pair of options.
-/

namespace Centrifuge

/-- Byte strings (`[]byte`). -/
abbrev Bytes := List Nat

/-- `idSize`: the size of identifiers, roots etc (coredocument.go). -/
def idSize : Nat := 32

/-- `nftByteCount`: length of combined bytes of registry and token id. -/
def nftByteCount : Nat := 52

/-- Symbolic hash digests: the free algebra of the merkle construction.
`raw` embeds bytes supplied as an already-hashed leaf (`Hashed: true`),
`leaf` is the hash of a (property, value, salt) leaf where the salt is the
deterministic salt of that property, `node` is the pair hash of two
sibling subtree hashes. -/
inductive Digest : Type
  | raw : Bytes → Digest
  | leaf : String → Bytes → Digest
  | node : Digest → Digest → Digest
deriving DecidableEq

/-- One level of the merkle fold: hash adjacent pairs, promoting a
trailing odd element (precise-proofs binary tree over the leaf row). -/
def level : List Digest → List Digest
  | [] => []
  | [a] => [a]
  | a :: b :: rest => Digest.node a b :: level rest

/-- Merkle fold with explicit fuel (structural recursion so terms reduce
in the kernel); the fuel is always at least the row length at call sites,
which makes the exhaustion branch unreachable. -/
def rootOfFuel : Nat → List Digest → Digest
  | _, [] => Digest.raw []
  | _, [a] => a
  | 0, a :: _ :: _ => a
  | n + 1, a :: b :: rest => rootOfFuel n (level (a :: b :: rest))

/-- Root of a row of leaf digests: fold `level` until one digest is left.
The empty tree gets the empty raw digest. -/
def rootOf (ls : List Digest) : Digest := rootOfFuel ls.length ls

/-- Number of leaf atoms in a digest term; the merkle fold preserves the
total count, which separates roots of rows of different sizes. -/
def dsize : Digest → Nat
  | .raw _ => 1
  | .leaf _ _ => 1
  | .node l r => dsize l + dsize r

/-- Total leaf-atom count of a row. -/
def rowSize (ls : List Digest) : Nat := (ls.map dsize).sum

/-- A field-addressed proof as returned by `tree.CreateProof`: the leaf
hash and the sibling hashes (`SortedHashes`) up to the tree root. -/
structure Proof where
  hash : Digest
  sortedHashes : List Digest
deriving DecidableEq

/-- Sibling hashes of the leaf at index `i` in the row `ls`, bottom-up
(the audit path of the generated binary tree; fuel as in `rootOfFuel`). -/
def auditPathFuel : Nat → List Digest → Nat → List Digest
  | _, [], _ => []
  | _, [_], _ => []
  | 0, _ :: _ :: _, _ => []
  | n + 1, a :: b :: rest, i =>
      let row := a :: b :: rest
      let sib : List Digest :=
        if i % 2 == 0 then
          if h : i + 1 < row.length then [row.get ⟨i + 1, h⟩] else []
        else
          if h : i - 1 < row.length then [row.get ⟨i - 1, h⟩] else []
      sib ++ auditPathFuel n (level row) (i / 2)

/-- Audit path of the leaf at index `i` in row `ls`. -/
def auditPath (ls : List Digest) (i : Nat) : List Digest :=
  auditPathFuel ls.length ls i

/-- A generated precise-proofs document tree, reduced to what the claims
use: the ordered leaf row (readable property names with leaf digests),
the root hash, and per-field proofs. -/
structure PTree where
  leaves : List (String × Digest)
  root : Digest
  proofFor : String → Except String Proof

/-- Index of the first leaf named `f` in a leaf row. -/
def findLeafIdxFrom : List (String × Digest) → String → Nat → Option Nat
  | [], _, _ => none
  | l :: ls, f, i => if l.1 == f then some i else findLeafIdxFrom ls f (i + 1)

/-- Index of the first leaf named `f` in a leaf row. -/
def findLeafIdx (leaves : List (String × Digest)) (f : String) : Option Nat :=
  findLeafIdxFrom leaves f 0

/-- `tree.Generate` over an ordered leaf row: root is the merkle fold of
the leaf digests; `CreateProof` finds the leaf by property name and
returns its hash together with the audit path (`ProofFieldNotFound` when
the property is absent). -/
def buildTree (leaves : List (String × Digest)) : PTree where
  leaves := leaves
  root := rootOf (leaves.map Prod.snd)
  proofFor := fun f =>
    match findLeafIdx leaves f with
    | none => .error "ProofFieldNotFound"
    | some i =>
        .ok { hash := ((leaves.map Prod.snd).getD i (.raw []))
              sortedHashes := auditPath (leaves.map Prod.snd) i }

/-- A signature over the signing root
(`coredocumentpb.Signature`: signer id, public key, signature bytes,
timestamp). -/
structure Signature where
  signerId : Bytes
  publicKey : Bytes
  signature : Bytes
  timestamp : Bytes
deriving DecidableEq

/-- `coredocumentpb.SignatureData`. -/
structure SignatureData where
  signatures : List Signature
deriving DecidableEq

/-- An NFT bound to the document (`coredocumentpb.NFT`): the registry
address right-padded to 32 bytes and the token id. -/
structure NFT where
  registryId : Bytes
  tokenId : Bytes
deriving DecidableEq

/-- Read/read-sign action of a read rule (`coredocumentpb.Action`). -/
inductive Action : Type
  | actionRead
  | actionReadSign
deriving DecidableEq

/-- A role (`coredocumentpb.Role`): random 32-byte key, collaborator
DIDs, and NFTs (each a 52-byte registry‖token blob, see `ConstructNFT`). -/
structure Role where
  roleKey : Bytes
  collaborators : List Bytes
  nfts : List Bytes
deriving DecidableEq

/-- A read rule (`coredocumentpb.ReadRule`): role keys and an action. -/
structure ReadRule where
  roles : List Bytes
  action : Action
deriving DecidableEq

/-- A transition rule (`coredocumentpb.TransitionRule`), reduced to the
fields the claims touch: role keys, the compact field prefix it matches,
and a numeric match type/action pair. -/
structure TransitionRule where
  roles : List Bytes
  matchType : Nat
  fieldBytes : Bytes
  action : Nat
deriving DecidableEq

/-- The CoreDocument protobuf envelope (`coredocumentpb.CoreDocument`),
with the Go wrapper struct flattened away; access tokens are carried as
opaque serialised blobs since no claim inspects them. -/
structure CoreDocument where
  documentIdentifier : Bytes := []
  previousVersion : Bytes := []
  currentVersion : Bytes := []
  nextVersion : Bytes := []
  currentPreimage : Bytes := []
  nextPreimage : Bytes := []
  previousRoot : Bytes := []
  documentRoot : Bytes := []
  signingRoot : Bytes := []
  dataRoot : Bytes := []
  roles : List Role := []
  readRules : List ReadRule := []
  transitionRules : List TransitionRule := []
  nfts : List NFT := []
  accessTokens : List Bytes := []
  signatureData : SignatureData := ⟨[]⟩
deriving DecidableEq

/-- `AppendSignatures` (coredocument.go:149): appends the given
signatures to `SignatureData.Signatures` unconditionally (the nil-check
on `SignatureData` is the Go zero-value initialisation, which the model's
always-present record subsumes). -/
def appendSignatures (cd : CoreDocument) (signs : List Signature) : CoreDocument :=
  { cd with signatureData := ⟨cd.signatureData.signatures ++ signs⟩ }

/-- Leaf row of the signature-data tree: the deterministic protobuf
traversal of `SignatureData` yields, for the signature at index `i`, one
leaf per field, property-named under the `signatures_tree` prefix
(spec §4.1; the traversal itself lives in the external precise-proofs
library). -/
def signatureLeavesFrom : Nat → List Signature → List (String × Digest)
  | _, [] => []
  | i, s :: rest =>
      let p := "signatures_tree.signatures[" ++ toString i ++ "]."
      (p ++ "signer_id", Digest.leaf (p ++ "signer_id") s.signerId) ::
      (p ++ "public_key", Digest.leaf (p ++ "public_key") s.publicKey) ::
      (p ++ "signature", Digest.leaf (p ++ "signature") s.signature) ::
      (p ++ "timestamp", Digest.leaf (p ++ "timestamp") s.timestamp) ::
      signatureLeavesFrom (i + 1) rest

/-- `getSignatureDataTree` (coredocument.go:366): the merkle tree over
`SignatureData` with the `signatures_tree` prefix.  Salt generation
(`setSignatureDataSalts`) is deterministic per property in the model, so
the tree is total. -/
def getSignatureDataTree (cd : CoreDocument) : PTree :=
  buildTree (signatureLeavesFrom 0 cd.signatureData.signatures)

/-- A fixed concrete signature used in witnesses and counterexamples. -/
def sigA : Signature := ⟨[1], [2], [3], [4]⟩

/-- A concrete document already carrying `sigA`. -/
def cdWithSigA : CoreDocument := { signatureData := ⟨[sigA]⟩ }

/-- Modelled from the spec: `getRole` of read_acls.go (the file is
missing from src; only its tests are present).  Looks a role key up in
the roles table (§3: `roles: role_key → {collaborators, nfts}`). -/
def getRole (key : Bytes) (roles : List Role) : Option Role :=
  roles.find? (fun r => r.roleKey == key)

/-- Modelled from the spec: `findRole` of read_acls.go (missing from
src).  Walks the read rules whose action is among `actions`, resolves
each referenced role key in the roles table and stops as soon as the
callback grants (I6/§4.4: collaborators are reachable via read rules). -/
def findRole (cd : CoreDocument) (p : Role → Bool) (actions : List Action) : Bool :=
  (cd.readRules.filter (fun rr => actions.contains rr.action)).any fun rr =>
    rr.roles.any fun rk =>
      match getRole rk cd.roles with
      | some r => p r
      | none => false

/-- `getCollaborators` (coredocument.go:519): collects the collaborator
DIDs of every role reachable through a read rule whose action is among
`actions` (the role walk `findRole` is modelled from the spec, see
above).  DIDs are kept as 20-byte strings; the Go code turns them into
checksum-case hex only for display. -/
def getCollaborators (cd : CoreDocument) (actions : List Action) : List Bytes :=
  (cd.readRules.filter (fun rr => actions.contains rr.action)).flatMap fun rr =>
    rr.roles.flatMap fun rk =>
      match getRole rk cd.roles with
      | some r => r.collaborators
      | none => []

/-- `filterCollaborators` (coredocument.go:542): removes the filter ids
from `cs`.  The Go code compares lowercased hex strings of the 20-byte
DIDs, which coincides with byte equality. -/
def filterCollaborators (cs filterIDs : List Bytes) : List Bytes :=
  cs.filter (fun id => !(filterIDs.contains id))

/-- `GetCollaborators` (coredocument.go:509): collaborators with READ
and READ_SIGN permission, minus the filter ids. -/
def GetCollaboratorsOf (cd : CoreDocument) (filterIDs : List Bytes) : List Bytes :=
  filterCollaborators (getCollaborators cd [Action.actionReadSign, Action.actionRead]) filterIDs

/-- `newRoleWithCollaborators` (coredocument.go:231) with the random
role key passed explicitly: `none` when no collaborators are given. -/
def newRoleWithCollaborators (key : Bytes) (collaborators : List Bytes) : Option Role :=
  if collaborators.isEmpty then none
  else some { roleKey := key, collaborators := collaborators, nfts := [] }

/-- Modelled from the spec: `addCollaboratorsToReadSignRules` of
read_acls.go (missing from src).  Binds the new collaborators, when
there are any, to one fresh role and appends a read rule with action
READ_SIGN referencing it (spec §4.2 prepare_new_version). -/
def addCollaboratorsToReadSignRules (cd : CoreDocument) (collaborators : List Bytes)
    (key : Bytes) : CoreDocument :=
  match newRoleWithCollaborators key collaborators with
  | none => cd
  | some role =>
      { cd with
        roles := cd.roles ++ [role]
        readRules := cd.readRules ++ [{ roles := [role.roleKey], action := .actionReadSign }] }

/-- Modelled from the spec: `addCollaboratorsToTransitionRules` of
read_acls.go (missing from src).  The spec binds the newly supplied
collaborators to the one fresh role created above and adds a transition
rule for it matching the document prefix (match type 1 = PREFIX, action
1 = EDIT). -/
def addCollaboratorsToTransitionRules (cd : CoreDocument) (collaborators : List Bytes)
    (key : Bytes) (documentPfx : Bytes) : CoreDocument :=
  if collaborators.isEmpty then cd
  else
    { cd with
      transitionRules := cd.transitionRules ++
        [{ roles := [key], matchType := 1, fieldBytes := documentPfx, action := 1 }] }

/-- Fresh random values drawn during an operation
(`crypto.GenerateHashPair`, `utils.RandomSlice`), threaded explicitly. -/
structure Fresh where
  nextPreimage : Bytes := []
  nextVersion : Bytes := []
  roleKey : Bytes := []
  nftRoleKey : Bytes := []
deriving DecidableEq

/-- `populateVersions` (coredocument.go:625), non-nil predecessor branch
(the branch `PrepareNewVersion` exercises): the new version inherits the
predecessor's links and draws a fresh next pair. -/
def populateVersions (cdp : CoreDocument) (prev : CoreDocument) (fresh : Fresh) : CoreDocument :=
  { cdp with
    previousVersion := prev.currentVersion
    currentVersion := prev.nextVersion
    currentPreimage := prev.nextPreimage
    nextPreimage := fresh.nextPreimage
    nextVersion := fresh.nextVersion }

/-- `PrepareNewVersion` (coredocument.go:174): requires a 32-byte
document root on the predecessor, carries roles, read/transition rules,
NFTs and access tokens forward, resets the signature data, populates the
version links and binds the not-yet-present collaborators to a fresh
role.  Salt initialisation (`initSalts`) only fills the salts cache and
is not modelled; the collaborator list arrives parsed (DID parsing is a
boundary concern checked after the root test in the Go code). -/
def prepareNewVersion (cd : CoreDocument) (collaborators : List Bytes) (fresh : Fresh)
    (documentPfx : Bytes) : Except String CoreDocument :=
  if cd.documentRoot.length ≠ idSize then .error "Document root is invalid"
  else
    let oldCs := GetCollaboratorsOf cd []
    let ucs := filterCollaborators collaborators oldCs
    let cdp : CoreDocument :=
      { documentIdentifier := cd.documentIdentifier
        previousRoot := cd.documentRoot
        roles := cd.roles
        readRules := cd.readRules
        transitionRules := cd.transitionRules
        nfts := cd.nfts
        accessTokens := cd.accessTokens
        signatureData := ⟨[]⟩ }
    let cdp := populateVersions cdp cd fresh
    let ncd := addCollaboratorsToReadSignRules cdp ucs fresh.roleKey
    .ok (addCollaboratorsToTransitionRules ncd ucs fresh.roleKey documentPfx)

/-- A concrete anchored predecessor used by witnesses. -/
def cdAnchored : CoreDocument :=
  { documentIdentifier := [9]
    currentVersion := [1]
    nextVersion := [2]
    nextPreimage := [3]
    documentRoot := List.replicate 32 7 }

/-- Modelled from the spec: `ConstructNFT` of read_acls.go (missing from
src).  Concatenates the 20-byte registry address and the token id and
refuses any combination that is not exactly `nftByteCount` = 52 bytes
(spec §4.2: NFT-token length ≠ 32 → InvalidNFTToken; the test
TestCoreDocument_addNFTToReadRules rejects a 34-byte token). -/
def constructNFT (registry tokenId : Bytes) : Except String Bytes :=
  let nft := registry ++ tokenId
  if nft.length ≠ nftByteCount then .error "byte length mismatch" else .ok nft

/-- Modelled from the spec: `getStoredNFT` of read_acls.go (missing from
src).  First stored NFT whose 32-byte registry id starts with the
20-byte registry address (TestCoreDocumentModel_AddNFT looks NFTs up by
registry). -/
def getStoredNFT (nfts : List NFT) (registry : Bytes) : Option NFT :=
  nfts.find? (fun n => n.registryId.take 20 == registry)

/-- Token replacement on the first stored NFT for `registry` (the Go
code mutates the entry `getStoredNFT` returned in place). -/
def updateStoredNFT : List NFT → Bytes → Bytes → List NFT
  | [], _, _ => []
  | n :: rest, registry, tokenId =>
      if n.registryId.take 20 == registry then { n with tokenId := tokenId } :: rest
      else n :: updateStoredNFT rest registry tokenId

/-- Modelled from the spec: `addNFTToReadRules` of read_acls.go (missing
from src).  Constructs the 52-byte NFT blob and appends a fresh role
holding it together with a read rule with action READ (spec §4.2
add_nft; TestCoreDocument_addNFTToReadRules checks exactly this shape). -/
def addNFTToReadRules (cd : CoreDocument) (registry tokenId : Bytes)
    (key : Bytes) : Except String CoreDocument :=
  match constructNFT registry tokenId with
  | .error e => .error e
  | .ok nft =>
      .ok { cd with
            roles := cd.roles ++ [{ roleKey := key, collaborators := [], nfts := [nft] }]
            readRules := cd.readRules ++ [{ roles := [key], action := .actionRead }] }

/-- Modelled from the spec: `AddNFT` of read_acls.go (missing from src).
Prepares a new version (no new collaborators) and binds the NFT.  The
spec says "appends to nfts", but the repository's own test
TestCoreDocumentModel_AddNFT fixes the same-registry behaviour: when an
NFT for the registry is already stored, that entry's token id is
replaced and the nfts sequence keeps its length; only a new registry
appends an entry, whose registry id is the 20-byte address right-padded
with 12 zero bytes.  With `grant_read_access`, a fresh role holding the
NFT and a READ read rule are appended as well. -/
def addNFT (cd : CoreDocument) (grantReadAccess : Bool) (registry tokenId : Bytes)
    (fresh : Fresh) : Except String CoreDocument :=
  match prepareNewVersion cd [] fresh [] with
  | .error e => .error e
  | .ok ncd =>
      let ncd :=
        match getStoredNFT ncd.nfts registry with
        | some _ => { ncd with nfts := updateStoredNFT ncd.nfts registry tokenId }
        | none =>
            { ncd with
              nfts := ncd.nfts ++ [{ registryId := registry ++ List.replicate 12 0
                                     tokenId := tokenId }] }
      if grantReadAccess then addNFTToReadRules ncd registry tokenId fresh.nftRoleKey
      else .ok ncd

/-- Concrete 20-byte registry address. -/
def regA : Bytes := List.replicate 20 1

/-- Concrete 32-byte token ids. -/
def tokA : Bytes := List.replicate 32 2

/-- A second concrete 32-byte token id. -/
def tokB : Bytes := List.replicate 32 3

/-- A concrete anchored document already holding an NFT for `regA`. -/
def cdWithNft : CoreDocument :=
  { documentRoot := List.replicate 32 7
    nfts := [{ registryId := regA ++ List.replicate 12 0, tokenId := tokA }] }

/-- Modelled from the spec: `AccountCanRead` of read_acls.go (missing
from src).  REQUESTER_VERIFICATION (§4.4): the account is a collaborator
reachable via any read rule with action READ_SIGN or READ. -/
def accountCanRead (cd : CoreDocument) (account : Bytes) : Bool :=
  findRole cd (fun r => r.collaborators.contains account)
    [Action.actionReadSign, Action.actionRead]

/-- Modelled from the spec: `isNFTInRole` of read_acls.go (missing from
src).  The role holds the 52-byte registry‖token blob. -/
def isNFTInRole (r : Role) (registry tokenId : Bytes) : Bool :=
  match constructNFT registry tokenId with
  | .ok enft => r.nfts.contains enft
  | .error _ => false

/-- Modelled from the spec: `NFTOwnerCanRead` of read_acls.go (missing
from src); behaviour pinned by TestCoreDocument_NFTOwnerCanRead: an
account that can already read as a collaborator is granted outright (the
mock registry is never consulted); otherwise the NFT must be bound
through a read rule with action READ and the registry-reported owner
must equal the account's address. -/
def nftOwnerCanRead (tokenRegistry : Bytes → Bytes → Except String Bytes)
    (cd : CoreDocument) (registry tokenId account : Bytes) : Except String Unit :=
  if accountCanRead cd account then .ok ()
  else if !(findRole cd (fun r => isNFTInRole r registry tokenId) [Action.actionRead]) then
    .error "nft missing"
  else
    match tokenRegistry registry tokenId with
    | .error e => .error ("failed to get NFT owner: " ++ e)
    | .ok owner => if owner == account then .ok () else .error "account not owner of NFT"

/-- Concrete collaborator and non-collaborator DIDs. -/
def didA : Bytes := List.replicate 20 4

/-- A second concrete DID, the registry-reported owner. -/
def didB : Bytes := List.replicate 20 5

/-- A concrete document where `didA` is a collaborator and the NFT
(`regA`, `tokA`) is bound with read access. -/
def cdNftBound : CoreDocument :=
  { roles := [{ roleKey := [10], collaborators := [didA], nfts := [] },
              { roleKey := [11], collaborators := [], nfts := [regA ++ tokA] }]
    readRules := [{ roles := [[10]], action := .actionReadSign },
                  { roles := [[11]], action := .actionRead }] }

/-- A concrete token registry reporting `didB` as owner of every token. -/
def registryOwnerB (_registry _tokenId : Bytes) : Except String Bytes := .ok didB

/-- `DocumentRootTree` (coredocument.go:386): requires a 32-byte cached
signing root; builds the `dr_tree` two-leaf tree whose first leaf is the
signing root as a pre-hashed leaf and whose second leaf is the root of
the signature-data tree, then generates it. -/
def documentRootTree (cd : CoreDocument) : Except String PTree :=
  if cd.signingRoot.length ≠ idSize then .error "signing root is invalid"
  else
    .ok (buildTree
      [("dr_tree.signing_root", Digest.raw cd.signingRoot),
       ("dr_tree.signatures_root", (getSignatureDataTree cd).root)])

/-- `CalculateDocumentRoot` (coredocument.go:561): root hash of the
document-root tree.  The Go method also caches the root into
`Document.DocumentRoot`; the cache write carries no extra information
and is not modelled. -/
def calculateDocumentRoot (cd : CoreDocument) : Except String Digest :=
  match documentRootTree cd with
  | .error e => .error e
  | .ok tree => .ok tree.root

/-- The spec's root recipe (§4.2): the document root is the root of a
two-leaf tree over the signing root and the signatures root. -/
def specDocumentRoot (cd : CoreDocument) : Digest :=
  Digest.node (Digest.raw cd.signingRoot) (getSignatureDataTree cd).root

/-- A concrete document with a 32-byte signing root. -/
def cdSigned : CoreDocument :=
  { signingRoot := List.replicate 32 9, signatureData := ⟨[sigA]⟩ }

/-! ### Proof composition across trees -/

instance {ε α : Type} [DecidableEq ε] [DecidableEq α] : DecidableEq (Except ε α) := fun a b =>
  match a, b with
  | .error e, .error f =>
      match decEq e f with
      | isTrue h => isTrue (h ▸ rfl)
      | isFalse h => isFalse (fun hc => h (Except.error.inj hc))
  | .ok x, .ok y =>
      match decEq x y with
      | isTrue h => isTrue (h ▸ rfl)
      | isFalse h => isFalse (fun hc => h (Except.ok.inj hc))
  | .error _, .ok _ => isFalse (fun hc => Except.noConfusion hc)
  | .ok _, .error _ => isFalse (fun hc => Except.noConfusion hc)

/-- Byte encoding of a string value (the document type URL leaf). -/
def strBytes (s : String) : Bytes := s.toList.map Char.toNat

/-- `strings.Split(s, ".")` (structural recursion over the character
list so that concrete instances reduce in the kernel). -/
def splitDotAux : List Char → List Char → List String
  | [], acc => [String.mk acc.reverse]
  | c :: cs, acc =>
      if c = '.' then String.mk acc.reverse :: splitDotAux cs []
      else splitDotAux cs (c :: acc)

/-- Split a property path at the dots. -/
def splitDot (s : String) : List String := splitDotAux s.toList []

/-- Indexed leaves for the stored NFTs of the envelope. -/
def nftLeaves : Nat → List NFT → List (String × Digest)
  | _, [] => []
  | i, n :: rest =>
      let p := "cd_tree.nfts[" ++ toString i ++ "]"
      (p, Digest.leaf p (n.registryId ++ n.tokenId)) :: nftLeaves (i + 1) rest

/-- Indexed leaves for the roles of the envelope. -/
def roleLeaves : Nat → List Role → List (String × Digest)
  | _, [] => []
  | i, r :: rest =>
      let p := "cd_tree.roles[" ++ toString i ++ "]"
      (p, Digest.leaf p (r.roleKey ++ r.collaborators.flatten ++ r.nfts.flatten)) ::
        roleLeaves (i + 1) rest

/-- Numeric code of a read-rule action. -/
def actionCode : Action → Nat
  | .actionRead => 1
  | .actionReadSign => 2

/-- Indexed leaves for the read rules of the envelope. -/
def readRuleLeaves : Nat → List ReadRule → List (String × Digest)
  | _, [] => []
  | i, rr :: rest =>
      let p := "cd_tree.read_rules[" ++ toString i ++ "]"
      (p, Digest.leaf p (rr.roles.flatten ++ [actionCode rr.action])) ::
        readRuleLeaves (i + 1) rest

/-- Leaf row of the coredoc (`cd_tree`) envelope: the deterministic
protobuf traversal of the envelope fields (spec §4.1/§4.2; the traversal
itself lives in the external precise-proofs library). -/
def cdEnvelopeLeaves (cd : CoreDocument) : List (String × Digest) :=
  [("cd_tree.document_identifier",
     Digest.leaf "cd_tree.document_identifier" cd.documentIdentifier),
   ("cd_tree.previous_version", Digest.leaf "cd_tree.previous_version" cd.previousVersion),
   ("cd_tree.current_version", Digest.leaf "cd_tree.current_version" cd.currentVersion),
   ("cd_tree.next_version", Digest.leaf "cd_tree.next_version" cd.nextVersion),
   ("cd_tree.previous_root", Digest.leaf "cd_tree.previous_root" cd.previousRoot)] ++
  nftLeaves 0 cd.nfts ++ roleLeaves 0 cd.roles ++ readRuleLeaves 0 cd.readRules

/-- `documentTree` (coredocument.go:462): the `cd_tree` over the
envelope plus the explicit `document_type` leaf (excluded from the
traversal, salted with 32 zero bytes and added pre-hashed). -/
def documentTreeOf (cd : CoreDocument) (docType : String) : PTree :=
  buildTree (cdEnvelopeLeaves cd ++
    [("cd_tree.document_type", Digest.leaf "cd_tree.document_type" (strBytes docType))])

/-- `GetSigningRootHash` (coredocument.go:330): the hash carried by the
document-root tree's proof of `dr_tree.signing_root` — for that
pre-hashed leaf, the signing root itself. -/
def getSigningRootHash (cd : CoreDocument) : Except String Digest :=
  match documentRootTree cd with
  | .error e => .error e
  | .ok tree =>
      match tree.proofFor "dr_tree.signing_root" with
      | .error e => .error e
      | .ok proof => .ok proof.hash

/-- `getDataTreePrefix` (coredocument.go:296): head of the first
property of the data tree, split at the first dot; errors when the tree
has no properties or the property carries no prefix. -/
def getDataTreePfx (dataTree : PTree) : Except String String :=
  match dataTree.leaves with
  | [] => .error "no properties found in data tree"
  | l0 :: _ =>
      match splitDot l0.1 with
      | [] => .error "no prefix found in data tree property"
      | [_] => .error "no prefix found in data tree property"
      | p :: _ :: _ => .ok p

/-- `generateProofs` (coredocument.go:309): for each field, resolve the
tree by the field's prefix, create the in-tree proof and append the
cross-tree hashes registered for that prefix
(`UnknownTreePrefix` when the prefix is not in the map). -/
def generateProofs (lookup : String → Option (PTree × List Digest)) :
    List String → Except String (List Proof)
  | [] => .ok []
  | f :: fs =>
      match lookup ((splitDot f).headD "") with
      | none => .error "failed to find prefix tree in supported list"
      | some (t, th) =>
          match t.proofFor f with
          | .error e => .error e
          | .ok p =>
              match generateProofs lookup fs with
              | .error e => .error e
              | .ok ps => .ok ({ p with sortedHashes := p.sortedHashes ++ th } :: ps)

/-- `CreateProofs` (coredocument.go:259): builds the document-root,
signatures and coredoc trees, computes the signing-root hash and the
data-tree prefix, registers the cross-tree hashes per prefix (a Go map
written in the order dr_tree, data prefix, signatures_tree, cd_tree —
the last write wins, hence the reversed lookup order) and generates the
proofs. -/
def createProofs (cd : CoreDocument) (docType : String) (dataTree : PTree)
    (fields : List String) : Except String (List Proof) :=
  match documentRootTree cd with
  | .error e => .error e
  | .ok drTree =>
      let signatureTree := getSignatureDataTree cd
      let cdTree := documentTreeOf cd docType
      match getSigningRootHash cd with
      | .error e => .error ("failed to generate signing root proofs: " ++ e)
      | .ok srHash =>
          let dataRoot := dataTree.root
          let cdRoot := cdTree.root
          match getDataTreePfx dataTree with
          | .error e => .error e
          | .ok dataPfx =>
              let lookup : String → Option (PTree × List Digest) := fun p =>
                if p == "cd_tree" then some (cdTree, [dataRoot, signatureTree.root])
                else if p == "signatures_tree" then some (signatureTree, [srHash])
                else if p == dataPfx then some (dataTree, [cdRoot, signatureTree.root])
                else if p == "dr_tree" then some (drTree, [])
                else none
              generateProofs lookup fields

/-- A concrete one-leaf data tree with prefix `po`. -/
def dataTreeW : PTree := buildTree [("po.amount", Digest.leaf "po.amount" [1])]

/-- Version store: associates each stored version key with that stored
document's `next_version` link (the repository keyed by
`(account, version)`, reduced to the link structure the traversal
reads). -/
abbrev VersionStore := List (Bytes × Bytes)

/-- Lookup of a stored version's next link. -/
def lookupStore (store : VersionStore) (k : Bytes) : Option Bytes :=
  (store.find? (fun p => p.1 == k)).map Prod.snd

/-- Modelled from the spec: the traversal loop of `GetCurrentVersion` of
the document service (implementation missing from src; its test
TestService_GetCurrentVersion_successful is in
src/documents/documents_test/service_test.go).  Walks the stored
`next_version` links while the next version is stored; the fuel bounds
the walk by the store size, so a cyclic link structure exhausts it and
fails instead of spinning (spec §4.7/§9). -/
def getCurrentVersionAux (store : VersionStore) : Nat → Bytes → Except String Bytes
  | 0, _ => .error "version cycle detected"
  | fuel + 1, cur =>
      match lookupStore store cur with
      | none => .error "document not found"
      | some nxt =>
          match lookupStore store nxt with
          | none => .ok cur
          | some _ => getCurrentVersionAux store fuel nxt

/-- Modelled from the spec: `GetCurrentVersion(document_id)` — start the
walk at the document identifier with fuel one more than the store size
(an acyclic walk visits distinct stored keys, so it can never exhaust
this fuel). -/
def getCurrentVersion (store : VersionStore) (docId : Bytes) : Except String Bytes :=
  getCurrentVersionAux store (store.length + 1) docId

/-- The store of a linear version chain: each version points at its
successor and the last one at the terminal (absent) version. -/
def chainStore : List Bytes → Bytes → VersionStore
  | [], _ => []
  | [v], nf => [(v, nf)]
  | v :: w :: rest, nf => (v, w) :: chainStore (w :: rest) nf

/-- `p2ppb.AccessType` of a get-document request. -/
inductive AccessType : Type
  | requesterVerification
  | nftOwnerVerification
  | accessTokenVerification
  | invalidType
deriving DecidableEq

/-- `p2ppb.AccessTokenRequest`. -/
structure AccessTokenRequest where
  delegatingDocumentIdentifier : Bytes
  accessTokenId : Bytes
deriving DecidableEq

/-- `p2ppb.GetDocumentRequest`. -/
structure GetDocumentRequest where
  documentIdentifier : Bytes
  accessType : AccessType
  nftRegistryAddress : Bytes
  nftTokenId : Bytes
  accessTokenRequest : Option AccessTokenRequest
deriving DecidableEq

/-- `p2ppb.GetDocumentResponse`. -/
structure GetDocumentResponse where
  document : CoreDocument
deriving DecidableEq

/-- `validateDocumentAccess` of the p2p receiver handler (second part of
the src/identity/ideth/factory.go excerpt): dispatches on the requested
access type; `none` means access granted, `some` carries the error.  The
document service's `GetCurrentVersion` and the access-token evaluator
`ATGranteeCanRead` (whose implementation is not in src) are the
handler's injected dependencies, passed as functions. -/
def validateDocumentAccess
    (getCurVer : Bytes → Except String CoreDocument)
    (tokenRegistry : Bytes → Bytes → Except String Bytes)
    (atGranteeCanRead : CoreDocument → Bytes → Bytes → Bytes → Except String Unit)
    (docReq : GetDocumentRequest) (m : CoreDocument) (peer : Bytes) : Option String :=
  match docReq.accessType with
  | .requesterVerification =>
      if accountCanRead m peer then none else some "requester does not have access"
  | .nftOwnerVerification =>
      match nftOwnerCanRead tokenRegistry m docReq.nftRegistryAddress docReq.nftTokenId peer with
      | .ok _ => none
      | .error _ => some "requester does not have access"
  | .accessTokenVerification =>
      match docReq.accessTokenRequest with
      | none => some "access token request is nil"
      | some atr =>
          match getCurVer atr.delegatingDocumentIdentifier with
          | .error e => some e
          | .ok m2 =>
              match atGranteeCanRead m2 atr.accessTokenId docReq.documentIdentifier peer with
              | .ok _ => none
              | .error e => some e
  | .invalidType => some "invalid access type"

/-- `GetDocument` of the p2p receiver handler: fetches the current
version, validates access, packs and returns the document.  The Go
method returns the pair (response pointer, error); on access-validation
failure it executes `return nil, err` where `err` still holds the nil
error of the successful `GetCurrentVersion` call above it, so the caller
receives a nil response together with a nil error — modelled as the pair
`(none, none)`. -/
def getDocument
    (getCurVer : Bytes → Except String CoreDocument)
    (tokenRegistry : Bytes → Bytes → Except String Bytes)
    (atGranteeCanRead : CoreDocument → Bytes → Bytes → Bytes → Except String Unit)
    (pack : CoreDocument → Except String CoreDocument)
    (docReq : GetDocumentRequest) (requester : Bytes) :
    Option GetDocumentResponse × Option String :=
  match getCurVer docReq.documentIdentifier with
  | .error e => (none, some e)
  | .ok model =>
      if (validateDocumentAccess getCurVer tokenRegistry atGranteeCanRead
            docReq model requester).isSome then
        (none, none)
      else
        match pack model with
        | .error e => (none, some e)
        | .ok cd => (some ⟨cd⟩, none)

/-- A document service that always returns the empty document. -/
def getCurVerStub (_docId : Bytes) : Except String CoreDocument := .ok {}

/-- An access-token evaluator that always grants. -/
def atStub (_m : CoreDocument) (_tok _doc _peer : Bytes) : Except String Unit := .ok ()

/-- A packer that returns the document unchanged. -/
def packStub (cd : CoreDocument) : Except String CoreDocument := .ok cd

/-- A concrete request carrying an invalid access type. -/
def reqInvalid : GetDocumentRequest :=
  { documentIdentifier := [1], accessType := .invalidType
    nftRegistryAddress := [], nftTokenId := [], accessTokenRequest := none }

/-! ### Theorems -/

theorem level_length (ls : List Digest) : (level ls).length = (ls.length + 1) / 2 := by
  induction ls using level.induct with
  | case1 => simp [level]
  | case2 => simp [level]
  | case3 a b rest ih => simp [level, ih]; omega

theorem rowSize_level (ls : List Digest) : rowSize (level ls) = rowSize ls := by
  induction ls using level.induct with
  | case1 => simp [level]
  | case2 => simp [level]
  | case3 a b rest ih => simp [level, rowSize, dsize] at ih ⊢; omega

theorem dsize_rootOfFuel (n : Nat) (ls : List Digest) (h : ls ≠ [])
    (hfuel : ls.length ≤ n + 1) : dsize (rootOfFuel n ls) = rowSize ls := by
  induction n generalizing ls with
  | zero =>
      match ls with
      | [a] => simp [rootOfFuel, rowSize]
      | a :: b :: rest => simp at hfuel
  | succ m ih =>
      match ls with
      | [a] => simp [rootOfFuel, rowSize]
      | a :: b :: rest =>
          rw [rootOfFuel, ih _ (by simp [level]), rowSize_level]
          rw [level_length]
          simp only [List.length_cons] at hfuel ⊢
          omega

theorem dsize_rootOf (ls : List Digest) (h : ls ≠ []) : dsize (rootOf ls) = rowSize ls :=
  dsize_rootOfFuel ls.length ls h (by omega)

theorem signatureLeavesFrom_length (i : Nat) (ss : List Signature) :
    (signatureLeavesFrom i ss).length = 4 * ss.length := by
  induction ss generalizing i with
  | nil => simp [signatureLeavesFrom]
  | cons s rest ih => simp [signatureLeavesFrom, ih]; omega

theorem signatureLeavesFrom_rowSize (i : Nat) (ss : List Signature) :
    rowSize ((signatureLeavesFrom i ss).map Prod.snd) = 4 * ss.length := by
  induction ss generalizing i with
  | nil => simp [signatureLeavesFrom, rowSize]
  | cons s rest ih => simp [signatureLeavesFrom, rowSize, dsize] at ih ⊢; rw [ih]; omega

theorem sigRoot_dsize (cd : CoreDocument) (h : cd.signatureData.signatures ≠ []) :
    dsize (getSignatureDataTree cd).root = 4 * cd.signatureData.signatures.length := by
  have hne : (signatureLeavesFrom 0 cd.signatureData.signatures).map Prod.snd ≠ [] := by
    intro hnil
    have := congrArg List.length hnil
    simp [signatureLeavesFrom_length] at this
    exact h this
  simp only [getSignatureDataTree, buildTree]
  rw [dsize_rootOf _ hne, signatureLeavesFrom_rowSize]

/-- C1 counterexample: the signature `sigA` is already present in
`cdWithSigA`, yet calling `AppendSignatures sigA` again changes the root
of the signatures tree computed by `getSignatureDataTree` — the append is
unconditional and duplicates the signature's leaves. -/
theorem appendSignatures_not_idempotent_cex :
    sigA ∈ cdWithSigA.signatureData.signatures ∧
      (getSignatureDataTree (appendSignatures cdWithSigA [sigA])).root ≠
        (getSignatureDataTree cdWithSigA).root := by
  constructor
  · decide
  · decide

/-- C1 amended: `AppendSignatures` appends unconditionally, so appending
a signature that is already present in `cd.Document.SignatureData.
Signatures` always changes the signatures root computed by
`getSignatureDataTree` (the leaf row grows by the duplicate's leaves). -/
theorem appendSignatures_present_changes_root (cd : CoreDocument) (s : Signature)
    (hmem : s ∈ cd.signatureData.signatures) :
    (getSignatureDataTree (appendSignatures cd [s])).root ≠
      (getSignatureDataTree cd).root := by
  intro heq
  have hne : cd.signatureData.signatures ≠ [] := List.ne_nil_of_mem hmem
  have h1 : dsize (getSignatureDataTree (appendSignatures cd [s])).root =
      4 * (cd.signatureData.signatures.length + 1) := by
    have := sigRoot_dsize (appendSignatures cd [s]) (by simp [appendSignatures])
    simpa [appendSignatures] using this
  have h2 : dsize (getSignatureDataTree cd).root =
      4 * cd.signatureData.signatures.length := sigRoot_dsize cd hne
  rw [heq, h2] at h1
  omega

/-- C1 amended witness at the concrete input. -/
theorem appendSignatures_present_changes_root_witness :
    (getSignatureDataTree (appendSignatures cdWithSigA [sigA])).root ≠
      (getSignatureDataTree cdWithSigA).root :=
  appendSignatures_present_changes_root cdWithSigA sigA (by decide)

theorem addCollaboratorsToReadSignRules_spec (cd : CoreDocument) (cs : List Bytes)
    (key : Bytes) :
    addCollaboratorsToReadSignRules cd cs key =
      { cd with
        roles := cd.roles ++
          (if cs.isEmpty then [] else [{ roleKey := key, collaborators := cs, nfts := [] }])
        readRules := cd.readRules ++
          (if cs.isEmpty then [] else [{ roles := [key], action := .actionReadSign }]) } := by
  cases cs <;> simp [addCollaboratorsToReadSignRules, newRoleWithCollaborators]

/-- Characterisation of `prepareNewVersion` on a valid predecessor. -/
theorem prepareNewVersion_ok (cd : CoreDocument) (cs : List Bytes) (fresh : Fresh)
    (pfx : Bytes) (h : cd.documentRoot.length = 32) :
    prepareNewVersion cd cs fresh pfx =
      .ok { documentIdentifier := cd.documentIdentifier
            previousVersion := cd.currentVersion
            currentVersion := cd.nextVersion
            currentPreimage := cd.nextPreimage
            nextPreimage := fresh.nextPreimage
            nextVersion := fresh.nextVersion
            previousRoot := cd.documentRoot
            documentRoot := []
            signingRoot := []
            dataRoot := []
            roles := cd.roles ++
              (if (filterCollaborators cs (GetCollaboratorsOf cd [])).isEmpty then []
               else [{ roleKey := fresh.roleKey
                       collaborators := filterCollaborators cs (GetCollaboratorsOf cd [])
                       nfts := [] }])
            readRules := cd.readRules ++
              (if (filterCollaborators cs (GetCollaboratorsOf cd [])).isEmpty then []
               else [{ roles := [fresh.roleKey], action := .actionReadSign }])
            transitionRules := cd.transitionRules ++
              (if (filterCollaborators cs (GetCollaboratorsOf cd [])).isEmpty then []
               else [{ roles := [fresh.roleKey], matchType := 1, fieldBytes := pfx,
                       action := 1 }])
            nfts := cd.nfts
            accessTokens := cd.accessTokens
            signatureData := ⟨[]⟩ } := by
  rw [prepareNewVersion]
  rw [if_neg (by rw [h]; decide)]
  simp only [addCollaboratorsToReadSignRules_spec, populateVersions,
    addCollaboratorsToTransitionRules]
  cases hcs : (filterCollaborators cs (GetCollaboratorsOf cd [])).isEmpty <;> simp [hcs]

/-- C4: for every CoreDocument with a 32-byte document root, the
successor returned by `PrepareNewVersion` satisfies the version-chain
invariants I2 and I4: previous version, current version and current
preimage are inherited from the predecessor's current/next links, the
document identifier is stable, and the previous root is the
predecessor's document root. -/
theorem prepareNewVersion_version_chain (cd : CoreDocument) (cs : List Bytes)
    (fresh : Fresh) (pfx : Bytes) (h : cd.documentRoot.length = 32) :
    ∃ ncd, prepareNewVersion cd cs fresh pfx = .ok ncd ∧
      ncd.previousVersion = cd.currentVersion ∧
      ncd.currentVersion = cd.nextVersion ∧
      ncd.currentPreimage = cd.nextPreimage ∧
      ncd.documentIdentifier = cd.documentIdentifier ∧
      ncd.previousRoot = cd.documentRoot :=
  ⟨_, prepareNewVersion_ok cd cs fresh pfx h, rfl, rfl, rfl, rfl, rfl⟩

/-- C4 witness at a concrete predecessor. -/
theorem prepareNewVersion_version_chain_witness :
    ∃ ncd, prepareNewVersion cdAnchored [[5]] { roleKey := [8] } [] = .ok ncd ∧
      ncd.previousVersion = cdAnchored.currentVersion ∧
      ncd.currentVersion = cdAnchored.nextVersion ∧
      ncd.currentPreimage = cdAnchored.nextPreimage ∧
      ncd.documentIdentifier = cdAnchored.documentIdentifier ∧
      ncd.previousRoot = cdAnchored.documentRoot :=
  prepareNewVersion_version_chain cdAnchored [[5]] { roleKey := [8] } [] (by decide)

/-- C7: `PrepareNewVersion` fails on an absent or short previous root:
whenever the predecessor's document root is not exactly 32 bytes it
returns the invalid-previous-root error, for every collaborator list,
and produces no new version. -/
theorem prepareNewVersion_invalid_root (cd : CoreDocument) (cs : List Bytes)
    (fresh : Fresh) (pfx : Bytes) (h : cd.documentRoot.length ≠ 32) :
    prepareNewVersion cd cs fresh pfx = .error "Document root is invalid" := by
  rw [prepareNewVersion, if_pos (by simpa [idSize] using h)]

/-- C7 witness: the empty predecessor (empty document root) is refused. -/
theorem prepareNewVersion_invalid_root_witness :
    prepareNewVersion {} [[5]] {} [] = .error "Document root is invalid" :=
  prepareNewVersion_invalid_root {} [[5]] {} [] (by decide)

/-- C8: on a 32-byte-rooted predecessor, `PrepareNewVersion` carries the
roles, read rules, transition rules, NFTs and access tokens forward
unchanged, and adds exactly the supplied collaborators that are not
already collaborators of the document (`filterCollaborators` against
`GetCollaborators`, byte-equality of parsed DIDs being the Go
case-insensitive hex comparison) under one fresh role with a READ_SIGN
read rule and a transition rule; when all supplied collaborators are
already present nothing is added. -/
theorem prepareNewVersion_carries_and_filters (cd : CoreDocument) (cs : List Bytes)
    (fresh : Fresh) (pfx : Bytes) (h : cd.documentRoot.length = 32) :
    ∃ ncd, prepareNewVersion cd cs fresh pfx = .ok ncd ∧
      ncd.nfts = cd.nfts ∧
      ncd.accessTokens = cd.accessTokens ∧
      ncd.roles = cd.roles ++
        (if (filterCollaborators cs (GetCollaboratorsOf cd [])).isEmpty then []
         else [{ roleKey := fresh.roleKey
                 collaborators := filterCollaborators cs (GetCollaboratorsOf cd [])
                 nfts := [] }]) ∧
      ncd.readRules = cd.readRules ++
        (if (filterCollaborators cs (GetCollaboratorsOf cd [])).isEmpty then []
         else [{ roles := [fresh.roleKey], action := .actionReadSign }]) ∧
      ncd.transitionRules = cd.transitionRules ++
        (if (filterCollaborators cs (GetCollaboratorsOf cd [])).isEmpty then []
         else [{ roles := [fresh.roleKey], matchType := 1, fieldBytes := pfx,
                 action := 1 }]) :=
  ⟨_, prepareNewVersion_ok cd cs fresh pfx h, rfl, rfl, rfl, rfl, rfl⟩

/-- C8 witness at a concrete predecessor with a new collaborator. -/
theorem prepareNewVersion_carries_and_filters_witness :
    ∃ ncd, prepareNewVersion cdAnchored [[5]] { roleKey := [8] } [] = .ok ncd ∧
      ncd.nfts = cdAnchored.nfts ∧
      ncd.accessTokens = cdAnchored.accessTokens ∧
      ncd.roles = cdAnchored.roles ++
        (if (filterCollaborators [[5]] (GetCollaboratorsOf cdAnchored [])).isEmpty then []
         else [{ roleKey := Fresh.roleKey { roleKey := [8] }
                 collaborators := filterCollaborators [[5]] (GetCollaboratorsOf cdAnchored [])
                 nfts := [] }]) ∧
      ncd.readRules = cdAnchored.readRules ++
        (if (filterCollaborators [[5]] (GetCollaboratorsOf cdAnchored [])).isEmpty then []
         else [{ roles := [Fresh.roleKey { roleKey := [8] }], action := .actionReadSign }]) ∧
      ncd.transitionRules = cdAnchored.transitionRules ++
        (if (filterCollaborators [[5]] (GetCollaboratorsOf cdAnchored [])).isEmpty then []
         else [{ roles := [Fresh.roleKey { roleKey := [8] }], matchType := 1,
                 fieldBytes := [], action := 1 }]) :=
  prepareNewVersion_carries_and_filters cdAnchored [[5]] { roleKey := [8] } [] (by decide)

theorem updateStoredNFT_length (l : List NFT) (r t : Bytes) :
    (updateStoredNFT l r t).length = l.length := by
  induction l with
  | nil => rfl
  | cons n rest ih =>
      rw [updateStoredNFT]
      split <;> simp [ih]

/-- C2 counterexample: `cdWithNft` has a 32-byte document root and
already stores an NFT for the registry `regA`; adding a fresh token for
the same registry leaves the nfts sequence at length 1 (the claim
demands it grow to 2) — the stored entry's token id is replaced
instead. -/
theorem addNFT_same_registry_cex :
    (getStoredNFT cdWithNft.nfts regA).isSome = true ∧
      cdWithNft.nfts.length = 1 ∧
      (addNFT cdWithNft true regA tokB {}).toOption.map (fun ncd => ncd.nfts.length) =
        some 1 ∧
      (addNFT cdWithNft true regA tokB {}).toOption.map (fun ncd => ncd.nfts.length) ≠
        some 2 := by
  refine ⟨by decide, by decide, by decide, by decide⟩

/-- Characterisation of `addNFT` on valid inputs. -/
theorem addNFT_ok (cd : CoreDocument) (grant : Bool) (registry tokenId : Bytes)
    (fresh : Fresh) (h32 : cd.documentRoot.length = 32)
    (hreg : registry.length = 20) (htok : tokenId.length = 32) :
    addNFT cd grant registry tokenId fresh =
      .ok { documentIdentifier := cd.documentIdentifier
            previousVersion := cd.currentVersion
            currentVersion := cd.nextVersion
            currentPreimage := cd.nextPreimage
            nextPreimage := fresh.nextPreimage
            nextVersion := fresh.nextVersion
            previousRoot := cd.documentRoot
            documentRoot := []
            signingRoot := []
            dataRoot := []
            roles := cd.roles ++
              (if grant then
                 [{ roleKey := fresh.nftRoleKey, collaborators := []
                    nfts := [registry ++ tokenId] }]
               else [])
            readRules := cd.readRules ++
              (if grant then [{ roles := [fresh.nftRoleKey], action := .actionRead }]
               else [])
            transitionRules := cd.transitionRules
            nfts := (match getStoredNFT cd.nfts registry with
              | some _ => updateStoredNFT cd.nfts registry tokenId
              | none => cd.nfts ++ [{ registryId := registry ++ List.replicate 12 0
                                      tokenId := tokenId }])
            accessTokens := cd.accessTokens
            signatureData := ⟨[]⟩ } := by
  have hprep := prepareNewVersion_ok cd [] fresh [] h32
  have hnft : constructNFT registry tokenId = .ok (registry ++ tokenId) := by
    rw [constructNFT]
    simp [hreg, htok, nftByteCount]
  rw [addNFT, hprep]
  simp only [filterCollaborators, List.filter_nil, List.isEmpty_nil, if_true,
    List.append_nil]
  cases hstore : getStoredNFT cd.nfts registry with
  | none => cases grant <;> simp [hstore, addNFTToReadRules, hnft]
  | some n => cases grant <;> simp [hstore, addNFTToReadRules, hnft]

/-- C2 amended: on a predecessor with a 32-byte document root, a 20-byte
registry and a 32-byte token, `AddNFT` binds the NFT by registry: a new
registry appends one entry (registry id right-padded to 32 bytes), while
a registry that already has a stored NFT gets that entry's token id
replaced, the sequence keeping its length; and with `grant_read_access`
a fresh role containing the 52-byte NFT and a read rule with action READ
are appended. -/
theorem addNFT_spec (cd : CoreDocument) (grant : Bool) (registry tokenId : Bytes)
    (fresh : Fresh) (h32 : cd.documentRoot.length = 32)
    (hreg : registry.length = 20) (htok : tokenId.length = 32) :
    ∃ ncd, addNFT cd grant registry tokenId fresh = .ok ncd ∧
      ncd.nfts = (match getStoredNFT cd.nfts registry with
        | some _ => updateStoredNFT cd.nfts registry tokenId
        | none => cd.nfts ++ [{ registryId := registry ++ List.replicate 12 0
                                tokenId := tokenId }]) ∧
      ncd.nfts.length =
        (if (getStoredNFT cd.nfts registry).isSome then cd.nfts.length
         else cd.nfts.length + 1) ∧
      (grant = true →
        ncd.roles = cd.roles ++
          [{ roleKey := fresh.nftRoleKey, collaborators := [], nfts := [registry ++ tokenId] }] ∧
        ncd.readRules = cd.readRules ++ [{ roles := [fresh.nftRoleKey], action := .actionRead }]) ∧
      (grant = false → ncd.roles = cd.roles ∧ ncd.readRules = cd.readRules) := by
  rw [addNFT_ok cd grant registry tokenId fresh h32 hreg htok]
  refine ⟨_, rfl, rfl, ?_, ?_, ?_⟩
  · cases hstore : getStoredNFT cd.nfts registry <;>
      simp [hstore, updateStoredNFT_length, List.length_append]
  · intro hg; subst hg; simp
  · intro hg; subst hg; simp

/-- C2 amended witness: adding to a fresh registry on a concrete
document. -/
theorem addNFT_spec_witness :
    ∃ ncd, addNFT cdAnchored true regA tokA { nftRoleKey := [12] } = .ok ncd ∧
      ncd.nfts = (match getStoredNFT cdAnchored.nfts regA with
        | some _ => updateStoredNFT cdAnchored.nfts regA tokA
        | none => cdAnchored.nfts ++ [{ registryId := regA ++ List.replicate 12 0
                                        tokenId := tokA }]) ∧
      ncd.nfts.length =
        (if (getStoredNFT cdAnchored.nfts regA).isSome then cdAnchored.nfts.length
         else cdAnchored.nfts.length + 1) ∧
      (true = true →
        ncd.roles = cdAnchored.roles ++
          [{ roleKey := Fresh.nftRoleKey { nftRoleKey := [12] }, collaborators := [],
             nfts := [regA ++ tokA] }] ∧
        ncd.readRules = cdAnchored.readRules ++
          [{ roles := [Fresh.nftRoleKey { nftRoleKey := [12] }], action := .actionRead }]) ∧
      (true = false → ncd.roles = cdAnchored.roles ∧ ncd.readRules = cdAnchored.readRules) :=
  addNFT_spec cdAnchored true regA tokA { nftRoleKey := [12] }
    (by decide) (by decide) (by decide)

/-- C3 counterexample: in `cdNftBound` the NFT (`regA`, `tokA`) is bound
with read access and the registry reports `didB` as its owner, yet the
evaluator grants read to `didA` — who is not the reported owner but a
collaborator, so the claimed equivalence "grants iff registry reports
the requester as owner" fails. -/
theorem nftOwnerCanRead_not_iff_owner_cex :
    findRole cdNftBound (fun r => isNFTInRole r regA tokA) [Action.actionRead] = true ∧
      registryOwnerB regA tokA = .ok didB ∧
      didB ≠ didA ∧
      nftOwnerCanRead registryOwnerB cdNftBound regA tokA didA = .ok () := by
  refine ⟨by decide, rfl, by decide, rfl⟩

/-- C3 amended: if the NFT (registry, token id) is bound with read
access in the document, then the evaluator grants read to a requester
iff the requester can already read as a collaborator or the token
registry reports the requester's address as the token's owner. -/
theorem nftOwnerCanRead_iff (tokenRegistry : Bytes → Bytes → Except String Bytes)
    (cd : CoreDocument) (registry tokenId account : Bytes)
    (hbound : findRole cd (fun r => isNFTInRole r registry tokenId)
      [Action.actionRead] = true) :
    nftOwnerCanRead tokenRegistry cd registry tokenId account = .ok () ↔
      (accountCanRead cd account = true ∨
        tokenRegistry registry tokenId = .ok account) := by
  by_cases hacc : accountCanRead cd account
  · simp [nftOwnerCanRead, hacc]
  · simp only [nftOwnerCanRead, hacc, if_false, hbound, Bool.not_true, Bool.false_eq_true,
      false_or]
    cases hreg : tokenRegistry registry tokenId with
    | error e => simp [hacc]
    | ok owner =>
        simp only [hacc, Bool.false_eq_true, false_or]
        constructor
        · intro h
          by_cases ho : owner == account
          · exact congrArg Except.ok (eq_of_beq ho)
          · simp [ho] at h
        · intro h
          have h2 : owner = account := Except.ok.inj h
          simp [h2]

/-- C3 amended witness: the non-collaborator `didB`, reported as owner
by the registry, is granted. -/
theorem nftOwnerCanRead_iff_witness :
    nftOwnerCanRead registryOwnerB cdNftBound regA tokA didB = .ok () ↔
      (accountCanRead cdNftBound didB = true ∨
        registryOwnerB regA tokA = .ok didB) :=
  nftOwnerCanRead_iff registryOwnerB cdNftBound regA tokA didB (by decide)

/-- C5: for every CoreDocument whose signing root is exactly 32 bytes,
`CalculateDocumentRoot` returns the root of the two-leaf `dr_tree` whose
leaves are the cached signing root (pre-hashed) and the root of the
signatures tree over the signature data; with a signing root of any
other length it returns an error instead. -/
theorem calculateDocumentRoot_spec (cd : CoreDocument) :
    (cd.signingRoot.length = 32 →
      calculateDocumentRoot cd = .ok (specDocumentRoot cd)) ∧
    (cd.signingRoot.length ≠ 32 →
      calculateDocumentRoot cd = .error "signing root is invalid") := by
  constructor
  · intro h
    rw [calculateDocumentRoot, documentRootTree, if_neg (by simp [h, idSize])]
    simp [buildTree, rootOf, rootOfFuel, level, specDocumentRoot]
  · intro h
    rw [calculateDocumentRoot, documentRootTree, if_pos (by simpa [idSize] using h)]

/-- C5 witness at a concrete document with a valid signing root. -/
theorem calculateDocumentRoot_spec_witness :
    calculateDocumentRoot cdSigned = .ok (specDocumentRoot cdSigned) :=
  (calculateDocumentRoot_spec cdSigned).1 (by decide)

theorem getSigningRootHash_ok (cd : CoreDocument) (h : cd.signingRoot.length = 32) :
    getSigningRootHash cd = .ok (Digest.raw cd.signingRoot) := by
  rw [getSigningRootHash, documentRootTree, if_neg (by simp [h, idSize])]
  simp [buildTree, findLeafIdx, findLeafIdxFrom]

/-- C6: `CreateProofs` composes cross-tree proofs by prefix: a field of
the data tree gets the data-tree proof hashes followed by the coredoc
root and the signatures root; a `cd_tree` field gets the data root and
the signatures root appended; a `signatures_tree` field gets the
signing-root hash appended; and a field whose prefix is none of the
known tree prefixes is refused with the unknown-tree-prefix error. -/
theorem createProofs_composition (cd : CoreDocument) (docType : String) (dataTree : PTree)
    (p0 : String) (d0 : Digest) (ls : List (String × Digest))
    (dataPfx q : String) (qs : List String)
    (hsr : cd.signingRoot.length = 32)
    (hleaves : dataTree.leaves = (p0, d0) :: ls)
    (hsplit : splitDot p0 = dataPfx :: q :: qs)
    (hdp : dataPfx ∉ ["dr_tree", "cd_tree", "signatures_tree"]) :
    (∀ f pf, (splitDot f).headD "" = dataPfx → dataTree.proofFor f = .ok pf →
       createProofs cd docType dataTree [f] =
         .ok [{ pf with sortedHashes := pf.sortedHashes ++
                 [(documentTreeOf cd docType).root, (getSignatureDataTree cd).root] }]) ∧
    (∀ f pf, (splitDot f).headD "" = "cd_tree" →
       (documentTreeOf cd docType).proofFor f = .ok pf →
       createProofs cd docType dataTree [f] =
         .ok [{ pf with sortedHashes := pf.sortedHashes ++
                 [dataTree.root, (getSignatureDataTree cd).root] }]) ∧
    (∀ f pf, (splitDot f).headD "" = "signatures_tree" →
       (getSignatureDataTree cd).proofFor f = .ok pf →
       createProofs cd docType dataTree [f] =
         .ok [{ pf with sortedHashes := pf.sortedHashes ++ [Digest.raw cd.signingRoot] }]) ∧
    (∀ f, ((splitDot f).headD "") ∉ [dataPfx, "dr_tree", "cd_tree", "signatures_tree"] →
       createProofs cd docType dataTree [f] =
         .error "failed to find prefix tree in supported list") := by
  have hdr : documentRootTree cd =
      .ok (buildTree
        [("dr_tree.signing_root", Digest.raw cd.signingRoot),
         ("dr_tree.signatures_root", (getSignatureDataTree cd).root)]) := by
    rw [documentRootTree, if_neg (by simp [hsr, idSize])]
  have hsrh := getSigningRootHash_ok cd hsr
  have hpfx : getDataTreePfx dataTree = .ok dataPfx := by
    rw [getDataTreePfx, hleaves]
    simp [hsplit]
  simp only [List.mem_cons, List.not_mem_nil, or_false, not_or] at hdp
  obtain ⟨hd1, hd2, hd3⟩ := hdp
  refine ⟨?_, ?_, ?_, ?_⟩
  · intro f pf hf hpf
    simp only [createProofs, hdr, hsrh, hpfx, generateProofs, hf, hpf]
    simp [beq_iff_eq, hd1, hd2, hd3]
    rw [hpf]
  · intro f pf hf hpf
    simp only [createProofs, hdr, hsrh, hpfx, generateProofs, hf, hpf]
    simp [beq_iff_eq, hd1, hd2, hd3]
    rw [hpf]
  · intro f pf hf hpf
    simp only [createProofs, hdr, hsrh, hpfx, generateProofs, hf, hpf]
    simp [beq_iff_eq, hd1, hd2, hd3]
    rw [hpf]
  · intro f hf
    simp only [List.mem_cons, List.not_mem_nil, or_false, not_or] at hf
    obtain ⟨hf1, hf2, hf3, hf4⟩ := hf
    rw [List.headD_eq_head?] at hf1 hf2 hf3 hf4
    simp only [createProofs, hdr, hsrh, hpfx, generateProofs]
    simp [beq_iff_eq, hf1, hf2, hf3, hf4]

/-- C6 witness: composing a data-tree proof on a concrete document, and
the unknown-prefix failure. -/
theorem createProofs_composition_witness :
    createProofs cdSigned "invoice" dataTreeW ["po.amount"] =
      .ok [{ hash := Digest.leaf "po.amount" [1]
             sortedHashes := (⟨Digest.leaf "po.amount" [1], []⟩ : Proof).sortedHashes ++
               [(documentTreeOf cdSigned "invoice").root,
                (getSignatureDataTree cdSigned).root] }] ∧
    createProofs cdSigned "invoice" dataTreeW ["bogus.x"] =
      .error "failed to find prefix tree in supported list" := by
  have h := createProofs_composition cdSigned "invoice" dataTreeW
    "po.amount" (Digest.leaf "po.amount" [1]) [] "po" "amount" []
    (by decide) rfl (by decide) (by decide)
  exact ⟨h.1 "po.amount" ⟨Digest.leaf "po.amount" [1], []⟩ (by decide) (by decide),
         h.2.2.2 "bogus.x" (by decide)⟩

theorem chainStore_length (vs : List Bytes) (nf : Bytes) :
    (chainStore vs nf).length = vs.length := by
  induction vs, nf using chainStore.induct with
  | case1 _ => rfl
  | case2 v _ => rfl
  | case3 v w rest _ ih => simp [chainStore] at ih ⊢; exact ih

theorem lookup_chainStore_none (vs : List Bytes) (nf k : Bytes) (hk : k ∉ vs) :
    lookupStore (chainStore vs nf) k = none := by
  induction vs, nf using chainStore.induct with
  | case1 _ => rfl
  | case2 v _ =>
      simp only [List.mem_singleton] at hk
      rw [chainStore, lookupStore]
      rw [List.find?_cons_of_neg _ (by simp [beq_iff_eq]; exact fun hc => hk hc.symm)]
      rfl
  | case3 v w rest _ ih =>
      simp only [List.mem_cons, not_or] at hk
      obtain ⟨hk1, hk2⟩ := hk
      rw [chainStore, lookupStore]
      rw [List.find?_cons_of_neg _ (by simp [beq_iff_eq]; exact fun hc => hk1 hc.symm)]
      exact ih (by simp [not_or, hk2])

theorem lookup_chainStore (vs : List Bytes) (nf : Bytes) (hnodup : vs.Nodup) :
    ∀ (pre : List Bytes) (v : Bytes) (rest : List Bytes), vs = pre ++ v :: rest →
      lookupStore (chainStore vs nf) v = some (rest.headD nf) := by
  intro pre
  induction pre generalizing vs with
  | nil =>
      intro v rest hvs
      subst hvs
      cases rest with
      | nil => simp [chainStore, lookupStore, List.find?]
      | cons w t => simp [chainStore, lookupStore, List.find?]
  | cons x pre2 ih =>
      intro v rest hvs
      subst hvs
      have hxv : x ≠ v := by
        have := hnodup
        simp only [List.cons_append, List.nodup_cons] at this
        intro hc
        exact this.1 (hc ▸ (by simp : v ∈ pre2 ++ v :: rest))
      obtain ⟨y, t, hyt⟩ : ∃ y t, pre2 ++ v :: rest = y :: t := by
        cases pre2 <;> exact ⟨_, _, rfl⟩
      rw [List.cons_append, hyt, chainStore, lookupStore]
      rw [List.find?_cons_of_neg _ (by simp [beq_iff_eq]; exact hxv)]
      rw [← lookupStore, ← hyt]
      exact ih (pre2 ++ v :: rest)
        (by simpa using (List.nodup_cons.mp (by simpa using hnodup)).2) v rest rfl

theorem gcvAux_chain (vs : List Bytes) (nf : Bytes) (hnodup : vs.Nodup) (hnf : nf ∉ vs) :
    ∀ (rest pre : List Bytes) (v : Bytes), vs = pre ++ v :: rest →
      ∀ fuel, rest.length < fuel →
        getCurrentVersionAux (chainStore vs nf) fuel v =
          .ok ((v :: rest).getLast (List.cons_ne_nil v rest)) := by
  intro rest
  induction rest with
  | nil =>
      intro pre v hvs fuel hfuel
      cases fuel with
      | zero => omega
      | succ f =>
          rw [getCurrentVersionAux]
          rw [lookup_chainStore vs nf hnodup pre v [] hvs]
          simp only [List.headD_nil]
          rw [lookup_chainStore_none vs nf nf hnf]
          simp [List.getLast_singleton]
  | cons w rest2 ih =>
      intro pre v hvs fuel hfuel
      cases fuel with
      | zero => omega
      | succ f =>
          rw [getCurrentVersionAux]
          rw [lookup_chainStore vs nf hnodup pre v (w :: rest2) hvs]
          simp only [List.headD_cons]
          rw [lookup_chainStore vs nf hnodup (pre ++ [v]) w rest2 (by simpa using hvs)]
          rw [ih (pre ++ [v]) w (by simpa using hvs) f (by simpa using Nat.lt_of_succ_lt_succ hfuel)]
          simp [List.getLast_cons]

theorem gcvAux_closed (store : VersionStore)
    (hclosed : ∀ p ∈ store, (lookupStore store p.2).isSome = true) :
    ∀ fuel cur, (lookupStore store cur).isSome = true →
      getCurrentVersionAux store fuel cur = .error "version cycle detected" := by
  intro fuel
  induction fuel with
  | zero => intro cur _; rfl
  | succ m ih =>
      intro cur hc
      obtain ⟨nxt, hn⟩ := Option.isSome_iff_exists.mp hc
      have hmem : ∃ p ∈ store, p.2 = nxt := by
        rw [lookupStore] at hn
        cases hf : store.find? (fun p => p.1 == cur) with
        | none => rw [hf] at hn; simp at hn
        | some p =>
            rw [hf] at hn
            rw [Option.map_some'] at hn
            exact ⟨p, List.mem_of_find?_eq_some hf, Option.some.inj hn⟩
      obtain ⟨p, hp, hpn⟩ := hmem
      have hnxt : (lookupStore store nxt).isSome = true := hpn ▸ hclosed p hp
      rw [getCurrentVersionAux, hn]
      obtain ⟨m2, hm2⟩ := Option.isSome_iff_exists.mp hnxt
      simp only [hm2]
      exact ih nxt hnxt

/-- C9: `GetCurrentVersion` walks the stored next-version links from the
document identifier and returns the last stored version of a linear
chain (the terminal next link pointing at a non-existing version); and
it terminates with a cycle-detection failure on any store whose links
are closed (every stored next version is itself stored — in particular
any cycle through the document identifier), instead of walking forever. -/
theorem getCurrentVersion_spec :
    (∀ (v0 : Bytes) (rest : List Bytes) (nf : Bytes),
       (v0 :: rest).Nodup → nf ∉ v0 :: rest →
       getCurrentVersion (chainStore (v0 :: rest) nf) v0 =
         .ok ((v0 :: rest).getLast (List.cons_ne_nil v0 rest))) ∧
    (∀ (store : VersionStore) (docId : Bytes),
       (∀ p ∈ store, (lookupStore store p.2).isSome = true) →
       (lookupStore store docId).isSome = true →
       getCurrentVersion store docId = .error "version cycle detected") := by
  constructor
  · intro v0 rest nf hnodup hnf
    rw [getCurrentVersion, chainStore_length]
    exact gcvAux_chain (v0 :: rest) nf hnodup hnf rest [] v0 rfl _ (by simp; omega)
  · intro store docId hclosed hdoc
    exact gcvAux_closed store hclosed _ docId hdoc

/-- C9 witness: a three-version chain resolves to its last version, and
a two-cycle is detected and fails. -/
theorem getCurrentVersion_spec_witness :
    getCurrentVersion (chainStore [[1], [2], [3]] [4]) [1] =
      .ok (([1] :: [[2], [3]]).getLast (List.cons_ne_nil [1] [[2], [3]])) ∧
    getCurrentVersion [([1], [2]), ([2], [1])] [1] = .error "version cycle detected" :=
  ⟨getCurrentVersion_spec.1 [1] [[2], [3]] [4] (by decide) (by decide),
   getCurrentVersion_spec.2 [([1], [2]), ([2], [1])] [1] (by decide) (by decide)⟩

/-- C10: whenever the current version is fetched successfully but access
validation fails, the p2p GetDocument handler returns a nil response
together with a nil error: the denial is neither reported as an error
nor accompanied by the document. -/
theorem getDocument_denied_nil_nil
    (getCurVer : Bytes → Except String CoreDocument)
    (tokenRegistry : Bytes → Bytes → Except String Bytes)
    (atGranteeCanRead : CoreDocument → Bytes → Bytes → Bytes → Except String Unit)
    (pack : CoreDocument → Except String CoreDocument)
    (docReq : GetDocumentRequest) (requester : Bytes) (model : CoreDocument)
    (hfetch : getCurVer docReq.documentIdentifier = .ok model)
    (hdenied : validateDocumentAccess getCurVer tokenRegistry atGranteeCanRead
      docReq model requester ≠ none) :
    getDocument getCurVer tokenRegistry atGranteeCanRead pack docReq requester =
      (none, none) := by
  rw [getDocument, hfetch]
  simp only [if_pos (Option.isSome_iff_ne_none.mpr hdenied)]

/-- C10 witness: a request with an invalid access type against the stub
service is answered with a nil response and a nil error. -/
theorem getDocument_denied_nil_nil_witness :
    getDocument getCurVerStub registryOwnerB atStub packStub reqInvalid [] =
      (none, none) :=
  getDocument_denied_nil_nil getCurVerStub registryOwnerB atStub packStub reqInvalid []
    {} rfl (by decide)

end Centrifuge
